import Mathlib

/-!
# Verification of the Namibia HIV/AIDS GIS analytical core (igor.py)

Shallow embedding of the analytical computations of `igor.py` (a
tkinter/pandas/matplotlib application) and proofs about the behaviour its
specification claims.

Conventions of the embedding:

* A pandas `DataFrame` of case records becomes a `List CaseRecord`; the
  population table becomes a `List RegionProfile`; the facility table a
  `List FacilityRecord`.
* Python `datetime` values carry only the calendar date here (the records'
  diagnosis dates are generated at midnight); `datetime` comparison is the
  lexicographic comparison of (year, month, day), and `timedelta` arithmetic
  is day arithmetic on the civil day number.
* Floating-point arithmetic is embedded in `ℚ`.  A float `NaN` produced by a
  pandas reduction is represented by `Option.none` where it matters
  (correlation); for the policy statistics we embed the *square* of the
  standard deviation so that everything stays in `ℚ`.
* `Series.value_counts()` lists the distinct values in order of first
  occurrence with their multiplicities and sorts by count descending; the
  sort is stable for the small key sets of this program (numpy's sort is an
  insertion sort below 16 elements), so we embed it with the stable
  `List.insertionSort`.
* `pd.merge(..., on='region')` is an inner join; the population table holds
  one profile per region (§3 invariant of the data model, and true of
  `load_dummy_data`), so the join is embedded with `List.find?` on the
  profile list.
-/

/-- A calendar date `(year, month, day)`, embedding the date component of a
Python `datetime`. -/
structure Date where
  year : ℕ
  month : ℕ
  day : ℕ
deriving DecidableEq

/-- Python `datetime` comparison (lexicographic on year, month, day). -/
def Date.ltb (a b : Date) : Bool :=
  if a.year ≠ b.year then decide (a.year < b.year)
  else if a.month ≠ b.month then decide (a.month < b.month)
  else decide (a.day < b.day)

/-- Civil day number of a date (days since 1970-01-01, Gregorian calendar),
for years ≥ 1; this embeds Python `datetime` ± `timedelta(days=n)`
arithmetic.  Standard days-from-civil algorithm; all intermediate divisions
are on non-negative numbers, so ℕ division is exact. -/
def Date.dayNumber (dt : Date) : ℤ :=
  let y := if dt.month ≤ 2 then dt.year - 1 else dt.year
  let era := y / 400
  let yoe := y - era * 400
  let mp := (dt.month + 9) % 12
  let doy := (153 * mp + 2) / 5 + dt.day - 1
  let doe := yoe * 365 + yoe / 4 - yoe / 100 + doy
  ((era * 146097 + doe : ℕ) : ℤ) - 719468

/-- One HIV case record (a row of `self.hiv_data`, `load_dummy_data`).
Latitude/longitude are irrelevant to every claim and are omitted. -/
structure CaseRecord where
  region : String
  district : String
  gender : String
  age_group : String
  diagnosis_date : Date
  diagnosis_status : String
  on_treatment : Bool
deriving DecidableEq

/-- One row of `self.population_data` (`load_dummy_data`): region profile
with population and area.  The derived `density` column of line 83 is
`population / area_sqkm`. -/
structure RegionProfile where
  region : String
  population : ℚ
  area_sqkm : ℚ
deriving DecidableEq

/-- Density column computed in `load_dummy_data` line 83. -/
def RegionProfile.density (p : RegionProfile) : ℚ :=
  p.population / p.area_sqkm

/-- One row of `self.health_facilities` (`load_dummy_data`).  The
`services` field is the comma-joined string built by
`', '.join(np.random.choice(services, ...))` — a `str`, not a set. -/
structure FacilityRecord where
  name : String
  region : String
  district : String
  facility_type : String
  services : String
deriving DecidableEq

/-- The fixed list of Namibia's administrative regions
(`self.regions`, `load_dummy_data` lines 41–45). -/
def regions : List String :=
  ["Erongo", "Hardap", "Karas", "Kavango East", "Kavango West",
   "Khomas", "Kunene", "Ohangwena", "Omaheke", "Omusati",
   "Oshana", "Oshikoto", "Otjozondjupa", "Zambezi"]

/-- Distinct values of a list in order of first occurrence: the key order
produced by the hash table underlying `Series.value_counts()`. -/
def firstOccur : List String → List String
  | [] => []
  | x :: xs => x :: (firstOccur xs).filter (fun y => y ≠ x)

/-- `Series.value_counts()`: pairs `(value, multiplicity)` with keys in
first-occurrence order, sorted by multiplicity descending with a stable
sort. -/
def value_counts (xs : List String) : List (String × ℕ) :=
  List.insertionSort (fun a b => b.2 ≤ a.2)
    ((firstOccur xs).map (fun k => (k, xs.count k)))

/-- `update_hiv_map` lines 500–505: `value_counts().idxmax()` on the
`region` column.  `value_counts` sorts descending by count, so `idxmax`
(first index attaining the maximum) is the head of the sorted series. -/
def highest_region (recs : List CaseRecord) : Option String :=
  ((value_counts (recs.map (·.region))).head?).map Prod.fst

/-- `update_regional_analysis` lines 1065–1075 ("Cases per 100,000
Population"): `value_counts` of the region column, inner-merged with the
population table, `cases / population * 100000`, sorted descending by the
rate (`sort_values`, line 1075). -/
def cases_per_100k (recs : List CaseRecord) (profs : List RegionProfile) :
    List (String × ℚ) :=
  let counts := value_counts (recs.map (·.region))
  let merged := counts.filterMap (fun kc =>
    (profs.find? (fun p => p.region == kc.1)).map
      (fun p => (kc.1, (kc.2 : ℚ) / p.population * 100000)))
  List.insertionSort (fun a b => b.2 ≤ a.2) merged

/-- `update_high_risk_areas` lines 737–749: `value_counts` of the region
column, inner-merged with the population table, prevalence
`cases / population`, then the rows with `prevalence >= threshold`.  The
threshold is taken directly from the UI variable; the function performs no
range validation on it. -/
def update_high_risk (recs : List CaseRecord) (profs : List RegionProfile)
    (threshold : ℚ) : List String :=
  let counts := value_counts (recs.map (·.region))
  let merged := counts.filterMap (fun kc =>
    (profs.find? (fun p => p.region == kc.1)).map
      (fun p => (kc.1, (kc.2 : ℚ) / p.population)))
  (merged.filter (fun rp => threshold ≤ rp.2)).map Prod.fst

/-- `show_correlation_analysis` lines 690–698: the merged per-region pairs
`(density, prevalence)` fed to `Series.corr` and `np.polyfit`. -/
def corrPairs (recs : List CaseRecord) (profs : List RegionProfile) :
    List (ℚ × ℚ) :=
  (value_counts (recs.map (·.region))).filterMap (fun kc =>
    (profs.find? (fun p => p.region == kc.1)).map
      (fun p => (p.density, (kc.2 : ℚ) / p.population)))

/-- `Series.corr` (Pearson, line 701), reparametrised to stay in `ℚ`:
pandas returns `r = covN / sqrt (vxN * vyN)`; we return the signed square
`r * |r| = covN * |covN| / (vxN * vyN)`, an order isomorphism of `[-1, 1]`.
The float result is `NaN` exactly when a variance term is zero (which
subsumes fewer than two paired points); that case is `none`.  The code has
no error branch: every input yields a value that is rendered directly
(`"Correlation: {correlation:.3f}"`). -/
def seriesCorrSigned (ps : List (ℚ × ℚ)) : Option ℚ :=
  let n : ℚ := ps.length
  let sx := (ps.map Prod.fst).sum
  let sy := (ps.map Prod.snd).sum
  let sxx := (ps.map (fun p => p.1 * p.1)).sum
  let syy := (ps.map (fun p => p.2 * p.2)).sum
  let sxy := (ps.map (fun p => p.1 * p.2)).sum
  let covN := n * sxy - sx * sy
  let vxN := n * sxx - sx * sx
  let vyN := n * syy - sy * sy
  if vxN = 0 ∨ vyN = 0 then none
  else some (covN * |covN| / (vxN * vyN))

/-- The correlation displayed by `show_correlation_analysis` (line 701/704),
as a function of the record store. -/
def show_correlation (recs : List CaseRecord) (profs : List RegionProfile) :
    Option ℚ :=
  seriesCorrSigned (corrPairs recs profs)

/-- Python's `service in x` on strings: substring (infix) containment. -/
def strContains (hay needle : String) : Bool :=
  decide (needle.toList <:+: hay.toList)

/-- `update_facilities_map` lines 836–852: region filter and facility-type
filter (each skipped on the `"All"` sentinel), then the services filter —
facilities offering *at least one* of the selected services, tested by
`any(service in x for service in selected_services)`; the filter is skipped
when no service is selected. -/
def update_facilities_map (region_f type_f : String)
    (selected : List String) (fs : List FacilityRecord) :
    List FacilityRecord :=
  let f1 := if region_f ≠ "All" then fs.filter (fun f => f.region == region_f) else fs
  let f2 := if type_f ≠ "All" then f1.filter (fun f => f.facility_type == type_f) else f1
  if ¬ selected.isEmpty then
    f2.filter (fun f => selected.any (fun s => strContains f.services s))
  else f2

/-- The four record filters of `update_hiv_map` (lines 473–494), as a value
object: time frame, age group, gender, diagnosis status; `"All"` (or
`"All Time"`) means unconstrained. -/
structure HivFilters where
  time_frame : String
  age_group : String
  gender : String
  diagnosis : String
deriving DecidableEq

/-- `update_hiv_map` lines 473–494: sequential boolean-mask filters.  The
relative presets resolve against the evaluation-time `now`
(`datetime.now() - timedelta(days=365)`, resp. `5*365`), embedded at day
granularity. -/
def apply_hiv_filters (now : Date) (f : HivFilters)
    (recs : List CaseRecord) : List CaseRecord :=
  let d1 :=
    if f.time_frame == "Last Year" then
      recs.filter (fun r => decide (now.dayNumber - 365 ≤ r.diagnosis_date.dayNumber))
    else if f.time_frame == "Last 5 Years" then
      recs.filter (fun r => decide (now.dayNumber - 5 * 365 ≤ r.diagnosis_date.dayNumber))
    else recs
  let d2 := if f.age_group ≠ "All" then d1.filter (fun r => r.age_group == f.age_group) else d1
  let d3 := if f.gender ≠ "All" then d2.filter (fun r => r.gender == f.gender) else d2
  if f.diagnosis ≠ "All" then d3.filter (fun r => r.diagnosis_status == f.diagnosis) else d3

/-- Resampling frequency: `'M'`, `'Q'`, `'Y'` of
`update_temporal_trends` / `assess_policy_impact`. -/
inductive Freq where
  | M : Freq
  | Q : Freq
  | Y : Freq
deriving DecidableEq

/-- Index of the calendar bucket containing a date: months, quarters and
years are numbered consecutively (pandas labels the buckets by their
period-end timestamp; only the bucket identity and order matter here). -/
def bucketIdx (f : Freq) (d : Date) : ℕ :=
  match f with
  | .M => d.year * 12 + (d.month - 1)
  | .Q => d.year * 4 + (d.month - 1) / 3
  | .Y => d.year

/-- Smallest bucket index over a list of dates (junk `0` on `[]`). -/
def minBucket (f : Freq) : List Date → ℕ
  | [] => 0
  | d :: ds => (ds.map (bucketIdx f)).foldl min (bucketIdx f d)

/-- Largest bucket index over a list of dates (junk `0` on `[]`). -/
def maxBucket (f : Freq) : List Date → ℕ
  | [] => 0
  | d :: ds => (ds.map (bucketIdx f)).foldl max (bucketIdx f d)

/-- `DataFrame.resample(freq, on='diagnosis_date').size()`
(`update_temporal_trends` line 1286, `assess_policy_impact` lines
1169–1170): one `(bucket, count)` entry per calendar bucket from the
smallest occupied bucket to the largest, consecutive and ascending, empty
buckets counted `0`; the empty input yields the empty series. -/
def resampleSize (f : Freq) (dates : List Date) : List (ℕ × ℕ) :=
  match dates with
  | [] => []
  | d :: ds =>
    let idxs := (d :: ds).map (bucketIdx f)
    let lo := minBucket f (d :: ds)
    let hi := maxBucket f (d :: ds)
    (List.range (hi + 1 - lo)).map (fun i => (lo + i, idxs.count (lo + i)))

/-- `update_temporal_trends` lines 1244–1286 ("New Cases Over Time"):
region filter, inclusive date-range filter, then `resample(freq).size()`. -/
def cases_over_time (recs : List CaseRecord) (sel : String)
    (startD endD : Date) (f : Freq) : List (ℕ × ℕ) :=
  let d1 := if sel ≠ "All" then recs.filter (fun r => r.region == sel) else recs
  let d2 := d1.filter (fun r =>
    ¬ Date.ltb r.diagnosis_date startD ∧ ¬ Date.ltb endD r.diagnosis_date)
  resampleSize f (d2.map (·.diagnosis_date))

/-- Arithmetic mean of a list of rationals (`Series.mean()`).  On the empty
list this is `0 / 0 = 0` in `ℚ`; `assess_policy_impact` guards the empty
case separately, so the junk value is never relied upon. -/
def listMeanQ (vals : List ℚ) : ℚ := vals.sum / (vals.length : ℚ)

/-- Square of `Series.std()` — pandas' default is the *sample* standard
deviation (`ddof=1`, divisor `n - 1`).  For `n = 1` pandas returns `NaN`
(`0/0`); in `ℚ` that junk value is `0`, and no theorem below relies on the
`n = 1` value. -/
def sampleVarQ (vals : List ℚ) : ℚ :=
  ((vals.map (fun v => (v - listMeanQ vals) ^ 2)).sum) / ((vals.length : ℚ) - 1)

/-- The region filter of `assess_policy_impact` (lines 1159–1162). -/
def policyFiltered (recs : List CaseRecord) (sel : String) : List CaseRecord :=
  if sel ≠ "All" then recs.filter (fun r => r.region == sel) else recs

/-- Monthly bucket values of the pre-cutoff records
(`pre_policy.resample('M').size()`, lines 1165/1169), as rationals. -/
def preBucketVals (recs : List CaseRecord) (sel : String) (cutoff : Date) :
    List ℚ :=
  (resampleSize .M
    (((policyFiltered recs sel).filter
        (fun r => Date.ltb r.diagnosis_date cutoff)).map (·.diagnosis_date))).map
    (fun p => (p.2 : ℚ))

/-- Monthly bucket values of the post-cutoff records
(`post_policy.resample('M').size()`, lines 1166/1170), as rationals. -/
def postBucketVals (recs : List CaseRecord) (sel : String) (cutoff : Date) :
    List ℚ :=
  (resampleSize .M
    (((policyFiltered recs sel).filter
        (fun r => ¬ Date.ltb r.diagnosis_date cutoff)).map (·.diagnosis_date))).map
    (fun p => (p.2 : ℚ))

/-- The statistics displayed by `assess_policy_impact` (lines 1204–1227).
`pre_var`/`post_var` are the squares of the displayed `Std Dev` values. -/
structure PolicyImpact where
  pre_n : ℕ
  post_n : ℕ
  pre_mean : ℚ
  pre_var : ℚ
  post_mean : ℚ
  post_var : ℚ
  percent_change : Option ℚ
deriving DecidableEq

/-- `assess_policy_impact` lines 1204–1227: means and standard deviations
of the monthly bucket values on each side of the cutoff (`0` when a side is
empty), and the relative change
`((post_mean - pre_mean) / pre_mean) * 100`, displayed only under
`if pre_mean > 0` (no division by zero ever happens; `none` = no change
figure shown). -/
def assess_policy_impact (recs : List CaseRecord) (sel : String)
    (cutoff : Date) : PolicyImpact :=
  let preVals := preBucketVals recs sel cutoff
  let postVals := postBucketVals recs sel cutoff
  let pre_mean := if preVals.isEmpty then 0 else listMeanQ preVals
  let pre_var := if preVals.isEmpty then 0 else sampleVarQ preVals
  let post_mean := if postVals.isEmpty then 0 else listMeanQ postVals
  let post_var := if postVals.isEmpty then 0 else sampleVarQ postVals
  { pre_n := preVals.length
    post_n := postVals.length
    pre_mean := pre_mean
    pre_var := pre_var
    post_mean := post_mean
    post_var := post_var
    percent_change :=
      if 0 < pre_mean then some ((post_mean - pre_mean) / pre_mean * 100)
      else none }

/-- Modelled from the spec: the population mean (`sum / n`), the formula
§4.5 prescribes for the per-side mean.  Kept separate from `listMeanQ`
(which embeds `Series.mean()`) so that the two can be compared. -/
def popMeanQ (vals : List ℚ) : ℚ := vals.sum / (vals.length : ℚ)

/-- Modelled from the spec: square of the *population* standard deviation
(divisor `n`), the formula §4.5 prescribes for the per-side standard
deviation. -/
def popVarQ (vals : List ℚ) : ℚ :=
  ((vals.map (fun v => (v - popMeanQ vals) ^ 2)).sum) / (vals.length : ℚ)

/-- The conjunction of the four `update_hiv_map` masks as one row
predicate; the nesting mirrors the order in which the sequential filters
compose. -/
def hivPred (now : Date) (f : HivFilters) (r : CaseRecord) : Bool :=
  (if f.diagnosis ≠ "All" then r.diagnosis_status == f.diagnosis else true) &&
  ((if f.gender ≠ "All" then r.gender == f.gender else true) &&
   ((if f.age_group ≠ "All" then r.age_group == f.age_group else true) &&
    (if f.time_frame == "Last Year" then
       decide (now.dayNumber - 365 ≤ r.diagnosis_date.dayNumber)
     else if f.time_frame == "Last 5 Years" then
       decide (now.dayNumber - 5 * 365 ≤ r.diagnosis_date.dayNumber)
     else true)))

/-!  ## Concrete data used by witnesses and counterexamples -/

/-- An example case record (fields other than region and date are fixed). -/
def mkCase (reg : String) (d : Date) : CaseRecord :=
  ⟨reg, "District_1", "Male", "25-34", d, "New", true⟩

/-- The Khomas and Erongo rows of `population_data`. -/
def profsKE : List RegionProfile :=
  [⟨"Khomas", 415000, 36964⟩, ⟨"Erongo", 150000, 63579⟩]

/-- The Khomas row of `population_data`. -/
def profsK : List RegionProfile := [⟨"Khomas", 415000, 36964⟩]

def exC1recs : List CaseRecord := [mkCase "Khomas" ⟨2020, 3, 10⟩]

def exC2dates : List Date := [⟨2020, 1, 15⟩, ⟨2020, 3, 10⟩]

def exC3fac : FacilityRecord :=
  ⟨"Facility_1", "Khomas", "District_1", "Clinic", "HIV Testing, Counseling"⟩

def exC4recs : List CaseRecord := [mkCase "Khomas" ⟨2020, 3, 10⟩]

def exC4cutoff : Date := ⟨2020, 6, 1⟩

def exC5recs : List CaseRecord :=
  [mkCase "Khomas" ⟨2020, 1, 5⟩, mkCase "Khomas" ⟨2020, 3, 10⟩]

def exC5cutoff : Date := ⟨2020, 6, 1⟩

def exC6recs : List CaseRecord := [mkCase "Khomas" ⟨2020, 3, 10⟩]

def exC6recsW : List CaseRecord :=
  [mkCase "Khomas" ⟨2020, 3, 10⟩, mkCase "Khomas" ⟨2021, 4, 2⟩]

def exC7recs : List CaseRecord := [mkCase "Khomas" ⟨2019, 7, 1⟩]

def exC8recs : List CaseRecord :=
  [mkCase "Zambezi" ⟨2020, 1, 1⟩, mkCase "Erongo" ⟨2020, 2, 1⟩]

def exC8recsW : List CaseRecord :=
  [mkCase "Khomas" ⟨2020, 1, 1⟩, mkCase "Khomas" ⟨2020, 2, 1⟩,
   mkCase "Erongo" ⟨2020, 3, 1⟩]

def exC10fac : FacilityRecord :=
  ⟨"Facility_2", "Erongo", "District_2", "Hospital", "Advanced HIV Testing Suite"⟩

/-!  ## Helper lemmas -/

theorem foldl_min_le_init (l : List ℕ) : ∀ a : ℕ, l.foldl min a ≤ a := by
  induction l with
  | nil => intro a; exact le_rfl
  | cons x xs ih =>
    intro a
    exact le_trans (ih (min a x)) (min_le_left a x)

theorem foldl_min_le_mem {l : List ℕ} {x : ℕ} (hx : x ∈ l) :
    ∀ a : ℕ, l.foldl min a ≤ x := by
  induction l with
  | nil => cases hx
  | cons y ys ih =>
    intro a
    rcases List.mem_cons.1 hx with rfl | hx'
    · exact le_trans (foldl_min_le_init ys (min a x)) (min_le_right a x)
    · exact ih hx' (min a y)

theorem foldl_min_attain (l : List ℕ) : ∀ a : ℕ, l.foldl min a = a ∨ l.foldl min a ∈ l := by
  induction l with
  | nil => intro a; exact Or.inl rfl
  | cons x xs ih =>
    intro a
    rcases ih (min a x) with h | h
    · rcases min_choice a x with h' | h'
      · exact Or.inl (by rw [List.foldl_cons, h, h'])
      · exact Or.inr (by rw [List.foldl_cons, h, h']; exact List.mem_cons_self x xs)
    · exact Or.inr (List.mem_cons_of_mem x h)

theorem le_foldl_max_init (l : List ℕ) : ∀ a : ℕ, a ≤ l.foldl max a := by
  induction l with
  | nil => intro a; exact le_rfl
  | cons x xs ih =>
    intro a
    exact le_trans (le_max_left a x) (ih (max a x))

theorem mem_le_foldl_max {l : List ℕ} {x : ℕ} (hx : x ∈ l) :
    ∀ a : ℕ, x ≤ l.foldl max a := by
  induction l with
  | nil => cases hx
  | cons y ys ih =>
    intro a
    rcases List.mem_cons.1 hx with rfl | hx'
    · exact le_trans (le_max_right a x) (le_foldl_max_init ys (max a x))
    · exact ih hx' (max a y)

theorem foldl_max_attain (l : List ℕ) : ∀ a : ℕ, l.foldl max a = a ∨ l.foldl max a ∈ l := by
  induction l with
  | nil => intro a; exact Or.inl rfl
  | cons x xs ih =>
    intro a
    rcases ih (max a x) with h | h
    · rcases max_choice a x with h' | h'
      · exact Or.inl (by rw [List.foldl_cons, h, h'])
      · exact Or.inr (by rw [List.foldl_cons, h, h']; exact List.mem_cons_self x xs)
    · exact Or.inr (List.mem_cons_of_mem x h)

theorem minBucket_le {f : Freq} {dates : List Date} {d : Date} (hd : d ∈ dates) :
    minBucket f dates ≤ bucketIdx f d := by
  cases dates with
  | nil => cases hd
  | cons e es =>
    rcases List.mem_cons.1 hd with rfl | hd'
    · exact foldl_min_le_init _ _
    · exact foldl_min_le_mem (List.mem_map_of_mem (bucketIdx f) hd') _

theorem le_maxBucket {f : Freq} {dates : List Date} {d : Date} (hd : d ∈ dates) :
    bucketIdx f d ≤ maxBucket f dates := by
  cases dates with
  | nil => cases hd
  | cons e es =>
    rcases List.mem_cons.1 hd with rfl | hd'
    · exact le_foldl_max_init _ _
    · exact mem_le_foldl_max (List.mem_map_of_mem (bucketIdx f) hd') _

theorem minBucket_le_maxBucket {f : Freq} {dates : List Date} (h : dates ≠ []) :
    minBucket f dates ≤ maxBucket f dates := by
  cases dates with
  | nil => exact absurd rfl h
  | cons e es =>
    exact le_trans (minBucket_le (List.mem_cons_self e es))
      (le_maxBucket (List.mem_cons_self e es))

theorem minBucket_attain {f : Freq} {dates : List Date} (h : dates ≠ []) :
    ∃ d ∈ dates, bucketIdx f d = minBucket f dates := by
  cases dates with
  | nil => exact absurd rfl h
  | cons e es =>
    rcases foldl_min_attain (es.map (bucketIdx f)) (bucketIdx f e) with h' | h'
    · exact ⟨e, List.mem_cons_self e es, h'.symm⟩
    · rcases List.mem_map.1 h' with ⟨d, hd, hd'⟩
      exact ⟨d, List.mem_cons_of_mem e hd, hd'⟩

theorem maxBucket_attain {f : Freq} {dates : List Date} (h : dates ≠ []) :
    ∃ d ∈ dates, bucketIdx f d = maxBucket f dates := by
  cases dates with
  | nil => exact absurd rfl h
  | cons e es =>
    rcases foldl_max_attain (es.map (bucketIdx f)) (bucketIdx f e) with h' | h'
    · exact ⟨e, List.mem_cons_self e es, h'.symm⟩
    · rcases List.mem_map.1 h' with ⟨d, hd, hd'⟩
      exact ⟨d, List.mem_cons_of_mem e hd, hd'⟩

theorem sum_map_ite_eq (x : ℕ) : ∀ R : List ℕ,
    (R.map (fun i => if x = i then 1 else 0)).sum = List.count x R := by
  intro R
  induction R with
  | nil => simp
  | cons y R' ih =>
    simp only [List.map_cons, List.sum_cons, List.count_cons, ih]
    by_cases h : x = y
    · simp [h, Nat.add_comm]
    · have h' : ¬ y = x := fun hyx => h hyx.symm
      simp [h, h']

theorem sum_map_add_nat (R : List ℕ) (f g : ℕ → ℕ) :
    (R.map (fun i => f i + g i)).sum = (R.map f).sum + (R.map g).sum := by
  induction R with
  | nil => rfl
  | cons y R' ih =>
    simp only [List.map_cons, List.sum_cons, ih]
    omega

theorem sum_map_count (R : List ℕ) (l : List ℕ) (hR : R.Nodup)
    (hcov : ∀ x ∈ l, x ∈ R) : (R.map (fun i => List.count i l)).sum = l.length := by
  induction l with
  | nil => simp
  | cons x xs ih =>
    have hcount : (fun i => List.count i (x :: xs)) =
        (fun i => List.count i xs + (if x = i then 1 else 0)) := by
      funext i
      rw [List.count_cons]
      congr 1
      simp only [beq_iff_eq]
    rw [hcount, sum_map_add_nat, ih (fun y hy => hcov y (List.mem_cons_of_mem x hy)),
      sum_map_ite_eq, List.count_eq_one_of_mem hR (hcov x (List.mem_cons_self x xs))]
    simp

theorem resample_counts_sum (f : Freq) (dates : List Date) :
    ((resampleSize f dates).map Prod.snd).sum = dates.length := by
  cases dates with
  | nil => rfl
  | cons d ds =>
    have h1 : resampleSize f (d :: ds) =
        (List.range (maxBucket f (d :: ds) + 1 - minBucket f (d :: ds))).map
          (fun i => (minBucket f (d :: ds) + i,
            List.count (minBucket f (d :: ds) + i) ((d :: ds).map (bucketIdx f)))) := rfl
    have h2 : ((List.range (maxBucket f (d :: ds) + 1 - minBucket f (d :: ds))).map
        (fun i => (minBucket f (d :: ds) + i,
          List.count (minBucket f (d :: ds) + i) ((d :: ds).map (bucketIdx f))))).map
            Prod.snd =
        (List.range' (minBucket f (d :: ds))
          (maxBucket f (d :: ds) + 1 - minBucket f (d :: ds))).map
          (fun j => List.count j ((d :: ds).map (bucketIdx f))) := by
      rw [List.range'_eq_map_range, List.map_map, List.map_map]
      rfl
    have h3 : ((List.range' (minBucket f (d :: ds))
        (maxBucket f (d :: ds) + 1 - minBucket f (d :: ds))).map
          (fun j => List.count j ((d :: ds).map (bucketIdx f)))).sum =
        ((d :: ds).map (bucketIdx f)).length := by
      refine sum_map_count _ _ (List.nodup_range' _ _) ?_
      intro x hx
      rcases List.mem_map.1 hx with ⟨e, he, rfl⟩
      rw [List.mem_range'_1]
      have hle : bucketIdx f e ≤ maxBucket f (d :: ds) := le_maxBucket he
      have hge : minBucket f (d :: ds) ≤ bucketIdx f e := minBucket_le he
      omega
    rw [h1, h2, h3, List.length_map]

theorem filter_idem {α : Type} (p : α → Bool) (l : List α) :
    (l.filter p).filter p = l.filter p := by
  rw [List.filter_filter]
  simp only [Bool.and_self]

theorem mem_firstOccur {a : String} : ∀ {l : List String}, a ∈ firstOccur l ↔ a ∈ l
  | [] => Iff.rfl
  | x :: xs => by
    simp only [firstOccur, List.mem_cons, List.mem_filter, decide_eq_true_eq]
    by_cases h : a = x
    · simp [h]
    · simp [h, mem_firstOccur (l := xs)]

theorem mem_value_counts {xs : List String} {k : String} {c : ℕ} :
    (k, c) ∈ value_counts xs ↔ k ∈ xs ∧ c = xs.count k := by
  unfold value_counts
  rw [List.mem_insertionSort]
  simp only [List.mem_map, Prod.mk.injEq]
  constructor
  · rintro ⟨k', hk', rfl, rfl⟩
    exact ⟨mem_firstOccur.1 hk', rfl⟩
  · rintro ⟨hk, rfl⟩
    exact ⟨k, mem_firstOccur.2 hk, rfl, rfl⟩

theorem mem_value_counts_keys {xs : List String} {k : String} :
    k ∈ (value_counts xs).map Prod.fst ↔ k ∈ xs := by
  simp only [List.mem_map]
  constructor
  · rintro ⟨⟨k', c⟩, hm, rfl⟩
    exact (mem_value_counts.1 hm).1
  · intro hk
    exact ⟨(k, xs.count k), mem_value_counts.2 ⟨hk, rfl⟩, rfl⟩

theorem seriesCorr_short {ps : List (ℚ × ℚ)} (h : ps.length < 2) :
    seriesCorrSigned ps = none := by
  match ps with
  | [] => simp [seriesCorrSigned]
  | [p] => simp [seriesCorrSigned]
  | p :: q :: ps' => simp at h; omega

theorem meanQ_eq_pop (vals : List ℚ) :
    (if vals.isEmpty then 0 else listMeanQ vals) = popMeanQ vals := by
  cases vals with
  | nil => simp [popMeanQ]
  | cons v vs => simp [listMeanQ, popMeanQ]

theorem varQ_relation (vals : List ℚ) :
    (if vals.isEmpty then 0 else sampleVarQ vals) * ((vals.length : ℚ) - 1) =
      popVarQ vals * (vals.length : ℚ) := by
  have hmean : listMeanQ = popMeanQ := rfl
  cases vals with
  | nil => simp [popVarQ]
  | cons v vs =>
    cases vs with
    | nil =>
      simp [sampleVarQ, popVarQ, listMeanQ, popMeanQ]
    | cons w ws =>
      have hlen : (2 : ℚ) ≤ ((v :: w :: ws).length : ℚ) := by
        have h2 : 2 ≤ (v :: w :: ws).length := by simp
        exact_mod_cast h2
      have hne1 : ((v :: w :: ws).length : ℚ) - 1 ≠ 0 := by linarith
      have hne0 : ((v :: w :: ws).length : ℚ) ≠ 0 := by linarith
      rw [if_neg (by simp)]
      unfold sampleVarQ popVarQ
      rw [hmean, div_mul_cancel₀ _ hne1, div_mul_cancel₀ _ hne0]

theorem bucketVals_sum (f : Freq) (dates : List Date) :
    ((resampleSize f dates).map (fun p => (p.2 : ℚ))).sum = (dates.length : ℚ) := by
  have h1 : (resampleSize f dates).map (fun p => (p.2 : ℚ)) =
      ((resampleSize f dates).map Prod.snd).map (Nat.cast : ℕ → ℚ) := by
    rw [List.map_map]
    rfl
  rw [h1, ← Nat.cast_list_sum, resample_counts_sum]

theorem resampleSize_ne_nil {f : Freq} {dates : List Date} (h : dates ≠ []) :
    resampleSize f dates ≠ [] := by
  cases dates with
  | nil => exact absurd rfl h
  | cons d ds =>
    have hlo : minBucket f (d :: ds) ≤ maxBucket f (d :: ds) :=
      minBucket_le_maxBucket (List.cons_ne_nil d ds)
    have hlen : (resampleSize f (d :: ds)).length =
        maxBucket f (d :: ds) + 1 - minBucket f (d :: ds) := by
      show ((List.range (maxBucket f (d :: ds) + 1 - minBucket f (d :: ds))).map _).length = _
      rw [List.length_map, List.length_range]
    intro hnil
    rw [hnil] at hlen
    simp at hlen
    omega

theorem firstOccur_ne_nil {l : List String} (h : l ≠ []) : firstOccur l ≠ [] := by
  cases l with
  | nil => exact absurd rfl h
  | cons x xs => exact List.cons_ne_nil _ _

theorem value_counts_ne_nil {xs : List String} (h : xs ≠ []) : value_counts xs ≠ [] := by
  intro hnil
  have hlen : (value_counts xs).length = (firstOccur xs).length := by
    unfold value_counts
    rw [List.length_insertionSort, List.length_map]
  rw [hnil] at hlen
  exact firstOccur_ne_nil h (List.length_eq_zero.1 hlen.symm)

instance countRelTotal : IsTotal (String × ℕ) (fun a b => b.2 ≤ a.2) :=
  ⟨fun a b => le_total b.2 a.2⟩

instance countRelTrans : IsTrans (String × ℕ) (fun a b => b.2 ≤ a.2) :=
  ⟨fun _ _ _ hab hbc => le_trans hbc hab⟩

theorem value_counts_sorted (xs : List String) :
    List.Sorted (fun a b : String × ℕ => b.2 ≤ a.2) (value_counts xs) :=
  List.sorted_insertionSort _ _

theorem sorted_head?_max {l : List (String × ℕ)} {p q : String × ℕ}
    (hs : List.Sorted (fun a b : String × ℕ => b.2 ≤ a.2) l)
    (hhd : l.head? = some p) (hq : q ∈ l) : q.2 ≤ p.2 := by
  cases l with
  | nil => cases hhd
  | cons x t =>
    have hx : p = x := by simpa using hhd.symm
    subst hx
    rcases List.mem_cons.1 hq with rfl | hq'
    · exact le_rfl
    · exact List.rel_of_sorted_cons hs q hq'

theorem apply_hiv_filters_eq_filter (now : Date) (f : HivFilters)
    (recs : List CaseRecord) :
    apply_hiv_filters now f recs = recs.filter (hivPred now f) := by
  unfold apply_hiv_filters hivPred
  split_ifs <;>
    simp only [List.filter_filter, Bool.and_true, Bool.true_and, List.filter_true]

/-!  ## Claims -/

/-- **C9**: for every record collection and every filter specification,
evaluated at one fixed point in time `now` (so the relative date presets
resolve to the same absolute bounds), applying the `update_hiv_map` filter
twice equals applying it once. -/
theorem apply_hiv_filters_idempotent (now : Date) (f : HivFilters)
    (recs : List CaseRecord) :
    apply_hiv_filters now f (apply_hiv_filters now f recs) =
      apply_hiv_filters now f recs := by
  simp only [apply_hiv_filters_eq_filter]
  exact filter_idem _ _

/-- **C2**: for every non-empty list of (diagnosis) dates and frequency in
{Month, Quarter, Year}, the resampled series has exactly one entry per
calendar bucket from the smallest occupied bucket to the largest, in
ascending consecutive order (`range'`), each entry counting the records in
that bucket (`0` for the intermediate empty buckets); both bounds are the
buckets of actual records, and the length is `max - min + 1`. -/
theorem resample_buckets_complete (f : Freq) (dates : List Date)
    (h : dates ≠ []) :
    (resampleSize f dates).map Prod.fst =
      List.range' (minBucket f dates)
        (maxBucket f dates + 1 - minBucket f dates) ∧
    (∀ p ∈ resampleSize f dates,
      p.2 = List.count p.1 (dates.map (bucketIdx f))) ∧
    (∃ d ∈ dates, bucketIdx f d = minBucket f dates) ∧
    (∃ d ∈ dates, bucketIdx f d = maxBucket f dates) ∧
    (resampleSize f dates).length =
      maxBucket f dates - minBucket f dates + 1 := by
  refine ⟨?_, ?_, minBucket_attain h, maxBucket_attain h, ?_⟩
  · cases dates with
    | nil => exact absurd rfl h
    | cons d ds =>
      show ((List.range (maxBucket f (d :: ds) + 1 - minBucket f (d :: ds))).map
        (fun i => (minBucket f (d :: ds) + i,
          List.count (minBucket f (d :: ds) + i)
            ((d :: ds).map (bucketIdx f))))).map Prod.fst = _
      rw [List.map_map, List.range'_eq_map_range]
      rfl
  · cases dates with
    | nil => exact absurd rfl h
    | cons d ds =>
      intro p hp
      have hp' : p ∈ (List.range
          (maxBucket f (d :: ds) + 1 - minBucket f (d :: ds))).map
          (fun i => (minBucket f (d :: ds) + i,
            List.count (minBucket f (d :: ds) + i)
              ((d :: ds).map (bucketIdx f)))) := hp
      rcases List.mem_map.1 hp' with ⟨i, _, rfl⟩
      rfl
  · cases dates with
    | nil => exact absurd rfl h
    | cons d ds =>
      have h1 : (resampleSize f (d :: ds)).length =
          maxBucket f (d :: ds) + 1 - minBucket f (d :: ds) := by
        show ((List.range _).map _).length = _
        rw [List.length_map, List.length_range]
      have h2 : minBucket f (d :: ds) ≤ maxBucket f (d :: ds) :=
        minBucket_le_maxBucket (List.cons_ne_nil d ds)
      omega

/-- The worked example of the specification: records dated 2020-01-15 and
2020-03-10 at Month granularity yield exactly the three buckets Jan, Feb,
Mar 2020 (indices 24240–24242), with the February count equal to 0. -/
theorem resample_example_jan_feb_mar :
    resampleSize Freq.M exC2dates = [(24240, 1), (24241, 0), (24242, 1)] := by
  decide

theorem resample_buckets_complete_witness :
    exC2dates ≠ [] ∧
    ((resampleSize Freq.M exC2dates).map Prod.fst =
      List.range' (minBucket Freq.M exC2dates)
        (maxBucket Freq.M exC2dates + 1 - minBucket Freq.M exC2dates) ∧
    (∀ p ∈ resampleSize Freq.M exC2dates,
      p.2 = List.count p.1 (exC2dates.map (bucketIdx Freq.M))) ∧
    (∃ d ∈ exC2dates, bucketIdx Freq.M d = minBucket Freq.M exC2dates) ∧
    (∃ d ∈ exC2dates, bucketIdx Freq.M d = maxBucket Freq.M exC2dates) ∧
    (resampleSize Freq.M exC2dates).length =
      maxBucket Freq.M exC2dates - minBucket Freq.M exC2dates + 1) :=
  ⟨by decide, resample_buckets_complete Freq.M exC2dates (by decide)⟩

/-- **C8** (counterexample): two records, one in Zambezi and one in Erongo,
tie at one case each (the maximal count).  The code
(`value_counts().idxmax()`) reports Zambezi — the region occurring first in
the *records* — whereas the first tied region in the canonical `regions`
ordering is Erongo. -/
theorem highest_region_tiebreak_counterexample :
    List.count "Zambezi" (exC8recs.map (·.region)) = 1 ∧
    List.count "Erongo" (exC8recs.map (·.region)) = 1 ∧
    highest_region exC8recs = some "Zambezi" ∧
    regions.find? (fun r => 0 < List.count r (exC8recs.map (·.region))) =
      some "Erongo" ∧
    ("Zambezi" : String) ≠ "Erongo" := by
  refine ⟨?_, ?_, ?_, ?_, ?_⟩ <;> decide

/-- **C8** (amended): on a non-empty filtered record set the reported
"highest region" is deterministic and attains the maximal count; ties are
broken by first occurrence in the record order (the hash table behind
`value_counts` lists keys in first-occurrence order and the descending
count sort is stable), not by the canonical region-list order. -/
theorem highest_region_reports_max (recs : List CaseRecord) (h : recs ≠ []) :
    ∃ r, highest_region recs = some r ∧ r ∈ recs.map (·.region) ∧
      ∀ s : String, List.count s (recs.map (·.region)) ≤
        List.count r (recs.map (·.region)) := by
  have hne : recs.map (·.region) ≠ [] := fun hx => h (List.map_eq_nil_iff.1 hx)
  cases hvl : value_counts (recs.map (·.region)) with
  | nil => exact absurd hvl (value_counts_ne_nil hne)
  | cons x t =>
    obtain ⟨r, c⟩ := x
    have hhd : (value_counts (recs.map (·.region))).head? = some (r, c) := by
      rw [hvl]
      rfl
    have hhr : highest_region recs = some r := by
      unfold highest_region
      rw [hvl]
      rfl
    have hmem : (r, c) ∈ value_counts (recs.map (·.region)) := by
      rw [hvl]
      exact List.mem_cons_self _ _
    obtain ⟨hrmem, hrc⟩ := mem_value_counts.1 hmem
    refine ⟨r, hhr, hrmem, ?_⟩
    intro s
    by_cases hs : s ∈ recs.map (·.region)
    · have hsm : (s, List.count s (recs.map (·.region))) ∈
          value_counts (recs.map (·.region)) :=
        mem_value_counts.2 ⟨hs, rfl⟩
      have hle := sorted_head?_max (value_counts_sorted _) hhd hsm
      rw [← hrc]
      exact hle
    · rw [List.count_eq_zero.2 hs]
      exact Nat.zero_le _

theorem highest_region_reports_max_witness :
    exC8recsW ≠ [] ∧
    ∃ r, highest_region exC8recsW = some r ∧ r ∈ exC8recsW.map (·.region) ∧
      ∀ s : String, List.count s (exC8recsW.map (·.region)) ≤
        List.count r (exC8recsW.map (·.region)) :=
  ⟨by decide, highest_region_reports_max exC8recsW (by decide)⟩

/-- **C1** (counterexample): with one Khomas case record and a profile
table containing both Khomas and Erongo, Erongo (zero cases) is *omitted*
from the "Cases per 100,000 Population" result: `value_counts` only lists
regions with at least one case and `pd.merge` is an inner join, so
zero-count regions never reach the result mapping. -/
theorem rate_per_capita_omits_zero_count_region :
    "Erongo" ∈ profsKE.map (·.region) ∧
    "Erongo" ∉ (cases_per_100k exC1recs profsKE).map Prod.fst := by
  refine ⟨?_, ?_⟩ <;> decide

/-- **C1** (amended): the per-capita result contains exactly the regions
that have at least one case *and* a profile row; each such region carries
the rate `count / population * 100000`. -/
theorem cases_per_100k_mem_iff (recs : List CaseRecord)
    (profs : List RegionProfile) (r : String) (q : ℚ) :
    (r, q) ∈ cases_per_100k recs profs ↔
      ∃ pr, profs.find? (fun p => p.region == r) = some pr ∧
        r ∈ recs.map (·.region) ∧
        q = (List.count r (recs.map (·.region)) : ℚ) / pr.population * 100000 := by
  unfold cases_per_100k
  rw [List.mem_insertionSort, List.mem_filterMap]
  constructor
  · rintro ⟨⟨k, c⟩, hk, hsome⟩
    rw [Option.map_eq_some'] at hsome
    rcases hsome with ⟨pr, hfind, heq⟩
    injection heq with h1 h2
    subst h1
    obtain ⟨hmem, hc⟩ := mem_value_counts.1 hk
    subst hc
    exact ⟨pr, hfind, hmem, h2.symm⟩
  · rintro ⟨pr, hfind, hmem, rfl⟩
    refine ⟨(r, List.count r (recs.map (·.region))),
      mem_value_counts.2 ⟨hmem, rfl⟩, ?_⟩
    rw [hfind]
    rfl

/-- **C7** (counterexample): the threshold `0` lies outside `(0, 1]`, yet
`update_high_risk_areas` accepts it and returns an ordinary result (every
merged region passes `prevalence >= 0`); no `ValueOutOfRange` failure
exists in the code. -/
theorem high_risk_accepts_invalid_threshold :
    update_high_risk exC7recs profsKE 0 = ["Khomas"] := by
  show ((List.filterMap _ (value_counts (exC7recs.map (·.region)))).filter
    (fun rp => decide ((0 : ℚ) ≤ rp.2))).map Prod.fst = ["Khomas"]
  norm_num [exC7recs, mkCase, profsKE, value_counts, firstOccur,
    List.insertionSort, List.orderedInsert, List.filterMap, List.find?]

/-- **C7** (amended): no range validation is performed on the threshold:
for *every* rational threshold `t`, a region is in the high-risk result iff
it has at least one case, a profile row, and prevalence
`count / population >= t` (inclusive comparison). -/
theorem update_high_risk_mem_iff (recs : List CaseRecord)
    (profs : List RegionProfile) (t : ℚ) (r : String) :
    r ∈ update_high_risk recs profs t ↔
      ∃ pr, profs.find? (fun p => p.region == r) = some pr ∧
        r ∈ recs.map (·.region) ∧
        t ≤ (List.count r (recs.map (·.region)) : ℚ) / pr.population := by
  unfold update_high_risk
  rw [List.mem_map]
  constructor
  · rintro ⟨⟨k, v⟩, hk, rfl⟩
    rw [List.mem_filter] at hk
    rcases hk with ⟨hmem, hle⟩
    rw [List.mem_filterMap] at hmem
    rcases hmem with ⟨⟨k', c⟩, hk', hsome⟩
    rw [Option.map_eq_some'] at hsome
    rcases hsome with ⟨pr, hfind, heq⟩
    injection heq with h1 h2
    subst h1
    obtain ⟨hmem', hc⟩ := mem_value_counts.1 hk'
    subst hc
    refine ⟨pr, hfind, hmem', ?_⟩
    rw [h2]
    exact of_decide_eq_true hle
  · rintro ⟨pr, hfind, hmem, hle⟩
    refine ⟨(r, (List.count r (recs.map (·.region)) : ℚ) / pr.population),
      ?_, rfl⟩
    rw [List.mem_filter]
    refine ⟨?_, decide_eq_true hle⟩
    rw [List.mem_filterMap]
    refine ⟨(r, List.count r (recs.map (·.region))),
      mem_value_counts.2 ⟨hmem, rfl⟩, ?_⟩
    rw [hfind]
    rfl

/-- **C3**: with a non-empty selected-service set, a facility is kept by
`update_facilities_map` iff it passes the region filter AND the type filter
AND offers at least one (not all) of the selected services — OR semantics
among the service tags, AND with the other facility filters. -/
theorem facilities_service_filter_or (region_f type_f : String)
    (selected : List String) (fs : List FacilityRecord)
    (h : selected ≠ []) (fac : FacilityRecord) :
    fac ∈ update_facilities_map region_f type_f selected fs ↔
      fac ∈ fs ∧ (region_f ≠ "All" → fac.region = region_f) ∧
        (type_f ≠ "All" → fac.facility_type = type_f) ∧
        ∃ s ∈ selected, strContains fac.services s := by
  have hsel : ¬ selected.isEmpty := by
    cases selected with
    | nil => exact absurd rfl h
    | cons a l => simp
  simp only [update_facilities_map, if_pos hsel]
  split_ifs <;>
    simp_all [List.mem_filter, List.any_eq_true, and_assoc] <;> tauto

theorem facilities_service_filter_or_witness :
    exC3fac ∈ update_facilities_map "All" "All" ["PrEP", "Counseling"]
      [exC3fac] :=
  (facilities_service_filter_or "All" "All" ["PrEP", "Counseling"]
    [exC3fac] (by decide) exC3fac).mpr
    ⟨by decide, by decide, by decide, "Counseling", by decide, by decide⟩

/-- **C10**: the service filter tests tag membership by *substring*
containment on the comma-joined services string (Python `service in x` on
`str`), not by exact set membership: with region/type unconstrained, a
facility passes iff some selected tag is an infix of its services string.
Hence a facility whose services string contains a selected tag only inside
a longer entry also passes (see the witness, where `"HIV Testing"` matches
inside `"Advanced HIV Testing Suite"`). -/
theorem facilities_service_filter_substring (selected : List String)
    (fs : List FacilityRecord) (fac : FacilityRecord) (h : selected ≠ []) :
    fac ∈ update_facilities_map "All" "All" selected fs ↔
      fac ∈ fs ∧ ∃ s ∈ selected, s.toList <:+: fac.services.toList := by
  have hsel : ¬ selected.isEmpty := by
    cases selected with
    | nil => exact absurd rfl h
    | cons a l => simp
  simp only [update_facilities_map, if_pos hsel]
  rw [if_neg (by simp), if_neg (by simp)]
  simp [List.mem_filter, List.any_eq_true, strContains]

theorem facilities_service_filter_substring_witness :
    exC10fac ∈ update_facilities_map "All" "All" ["HIV Testing"]
      [exC10fac] :=
  (facilities_service_filter_substring ["HIV Testing"] [exC10fac] exC10fac
    (by decide)).mpr ⟨by decide, "HIV Testing", by decide, by decide⟩

/-- **C6** (counterexample): with a single region in the case data the
merged series has one paired point; `show_correlation_analysis` does not
fail — it computes the correlation as usual and obtains `NaN`
(embedded `none`), which is rendered as `"Correlation: nan"`.  No
`InsufficientData` error path exists in the code. -/
theorem correlation_single_point_returns_value :
    (corrPairs exC6recs profsK).length = 1 ∧
    show_correlation exC6recs profsK = none := by
  refine ⟨by decide, ?_⟩
  exact seriesCorr_short (by decide)

/-- **C6** (amended): whenever fewer than two paired observations reach
`Series.corr`, the displayed correlation is the undefined float `NaN`
(`none`): the computation returns a value rather than raising an
`InsufficientData` error. -/
theorem correlation_nan_insufficient (recs : List CaseRecord)
    (profs : List RegionProfile) (h : (corrPairs recs profs).length < 2) :
    show_correlation recs profs = none :=
  seriesCorr_short h

theorem correlation_nan_insufficient_witness :
    (corrPairs exC6recsW profsK).length < 2 ∧
    show_correlation exC6recsW profsK = none :=
  ⟨by decide, correlation_nan_insufficient exC6recsW profsK (by decide)⟩

/-- **C4**: the percent-change figure equals
`(post_mean - pre_mean) / pre_mean * 100` exactly when `pre_mean > 0` and
is absent otherwise (the code divides only under `if pre_mean > 0`, so no
division by zero ever happens); and in the scenario where the non-empty
filtered record set lies entirely before the cutoff, `post_mean = 0` and
the reported change is `-100`. -/
theorem assess_policy_impact_change (recs : List CaseRecord) (sel : String)
    (cutoff : Date) :
    ((assess_policy_impact recs sel cutoff).percent_change =
      if 0 < (assess_policy_impact recs sel cutoff).pre_mean then
        some (((assess_policy_impact recs sel cutoff).post_mean -
            (assess_policy_impact recs sel cutoff).pre_mean) /
          (assess_policy_impact recs sel cutoff).pre_mean * 100)
      else none) ∧
    (policyFiltered recs sel ≠ [] →
      (∀ r ∈ policyFiltered recs sel, Date.ltb r.diagnosis_date cutoff) →
      (assess_policy_impact recs sel cutoff).post_mean = 0 ∧
        (assess_policy_impact recs sel cutoff).percent_change = some (-100)) := by
  constructor
  · rfl
  · intro hne hall
    have hpostnil : (policyFiltered recs sel).filter
        (fun r => ¬ Date.ltb r.diagnosis_date cutoff) = [] := by
      rw [List.filter_eq_nil_iff]
      intro a ha
      simp [hall a ha]
    have hpost : postBucketVals recs sel cutoff = [] := by
      unfold postBucketVals
      rw [hpostnil]
      rfl
    have hprefil : (policyFiltered recs sel).filter
        (fun r => Date.ltb r.diagnosis_date cutoff) = policyFiltered recs sel :=
      List.filter_eq_self.2 hall
    have hdatesne : (policyFiltered recs sel).map (·.diagnosis_date) ≠ [] :=
      fun hx => hne (List.map_eq_nil_iff.1 hx)
    have hprene : preBucketVals recs sel cutoff ≠ [] := by
      unfold preBucketVals
      rw [hprefil]
      intro hx
      exact resampleSize_ne_nil hdatesne (List.map_eq_nil_iff.1 hx)
    have hsum : (preBucketVals recs sel cutoff).sum =
        ((policyFiltered recs sel).length : ℚ) := by
      unfold preBucketVals
      rw [hprefil, bucketVals_sum, List.length_map]
    have hlenpos : 0 < ((preBucketVals recs sel cutoff).length : ℚ) := by
      have h0 : 0 < (preBucketVals recs sel cutoff).length :=
        List.length_pos.2 hprene
      exact_mod_cast h0
    have hsumpos : 0 < (preBucketVals recs sel cutoff).sum := by
      rw [hsum]
      have h0 : 0 < (policyFiltered recs sel).length := List.length_pos.2 hne
      exact_mod_cast h0
    have hmeanpos : 0 < listMeanQ (preBucketVals recs sel cutoff) :=
      div_pos hsumpos hlenpos
    have hpre_mean : (assess_policy_impact recs sel cutoff).pre_mean =
        listMeanQ (preBucketVals recs sel cutoff) := by
      simp only [assess_policy_impact]
      rw [if_neg (by simp [hprene])]
    have hpost_mean : (assess_policy_impact recs sel cutoff).post_mean = 0 := by
      simp only [assess_policy_impact]
      rw [if_pos (by simp [hpost])]
    refine ⟨hpost_mean, ?_⟩
    have hchange : (assess_policy_impact recs sel cutoff).percent_change =
        if 0 < (assess_policy_impact recs sel cutoff).pre_mean then
          some (((assess_policy_impact recs sel cutoff).post_mean -
              (assess_policy_impact recs sel cutoff).pre_mean) /
            (assess_policy_impact recs sel cutoff).pre_mean * 100)
        else none := rfl
    have hm : listMeanQ (preBucketVals recs sel cutoff) ≠ 0 :=
      ne_of_gt hmeanpos
    rw [hchange, if_pos (by rw [hpre_mean]; exact hmeanpos), hpost_mean,
      hpre_mean, zero_sub, neg_div, div_self hm]
    norm_num

theorem assess_policy_impact_change_witness :
    policyFiltered exC4recs "All" ≠ [] ∧
    (∀ r ∈ policyFiltered exC4recs "All",
      Date.ltb r.diagnosis_date exC4cutoff) ∧
    ((assess_policy_impact exC4recs "All" exC4cutoff).post_mean = 0 ∧
      (assess_policy_impact exC4recs "All" exC4cutoff).percent_change =
        some (-100)) :=
  ⟨by decide, by decide,
    (assess_policy_impact_change exC4recs "All" exC4cutoff).2
      (by decide) (by decide)⟩

/-- **C5** (counterexample): two records dated 2020-01-05 and 2020-03-10
with cutoff 2020-06-01 give pre-cutoff monthly buckets `[1, 0, 1]`.
pandas `Series.std()` defaults to the *sample* standard deviation
(`ddof=1`, divisor `n - 1`), so the code reports (squared) deviation
`1/3`, while the population formula the specification prescribes gives
`2/9`. -/
theorem policy_std_not_population :
    (assess_policy_impact exC5recs "All" exC5cutoff).pre_var = 1 / 3 ∧
    popVarQ (preBucketVals exC5recs "All" exC5cutoff) = 2 / 9 ∧
    (1 : ℚ) / 3 ≠ 2 / 9 := by
  have hres : resampleSize Freq.M
      (((policyFiltered exC5recs "All").filter
        (fun r => Date.ltb r.diagnosis_date exC5cutoff)).map
          (·.diagnosis_date)) = [(24240, 1), (24241, 0), (24242, 1)] := by
    decide
  have hvals : preBucketVals exC5recs "All" exC5cutoff = [1, 0, 1] := by
    unfold preBucketVals
    rw [hres]
    norm_num
  refine ⟨?_, ?_, by norm_num⟩
  · have h1 : (assess_policy_impact exC5recs "All" exC5cutoff).pre_var =
        if (preBucketVals exC5recs "All" exC5cutoff).isEmpty then 0
        else sampleVarQ (preBucketVals exC5recs "All" exC5cutoff) := rfl
    rw [h1, hvals]
    norm_num [sampleVarQ, listMeanQ]
  · rw [hvals]
    norm_num [popVarQ, popMeanQ]

/-- **C5** (amended): the per-side means are the standard (population)
means, but the standard deviations follow the *sample* formula
(`ddof=1`): writing `n` for the number of monthly buckets on a side, the
reported squared deviation satisfies
`var_code * (n - 1) = var_population * n` — i.e. the divisor is `n - 1`,
not `n`. -/
theorem policy_stats_formulas (recs : List CaseRecord) (sel : String)
    (cutoff : Date) :
    (assess_policy_impact recs sel cutoff).pre_mean =
      popMeanQ (preBucketVals recs sel cutoff) ∧
    (assess_policy_impact recs sel cutoff).post_mean =
      popMeanQ (postBucketVals recs sel cutoff) ∧
    (assess_policy_impact recs sel cutoff).pre_var *
        (((preBucketVals recs sel cutoff).length : ℚ) - 1) =
      popVarQ (preBucketVals recs sel cutoff) *
        ((preBucketVals recs sel cutoff).length : ℚ) ∧
    (assess_policy_impact recs sel cutoff).post_var *
        (((postBucketVals recs sel cutoff).length : ℚ) - 1) =
      popVarQ (postBucketVals recs sel cutoff) *
        ((postBucketVals recs sel cutoff).length : ℚ) := by
  refine ⟨?_, ?_, ?_, ?_⟩
  · exact meanQ_eq_pop _
  · exact meanQ_eq_pop _
  · exact varQ_relation _
  · exact varQ_relation _
